import Mathlib

/-!
Shallow embedding of the advanced-results middleware of the devcamper API
(`src/middlewares/advancedResults.js`) together with the query-string data
model it operates on, and theorems checking the specification's claims
about it.

The middleware receives the decoded query-parameter map (`req.query`), a
nested structure of string keys whose leaves are strings.  It
  1. copies the map and deletes the control keys `select`, `sort`, `page`,
     `limit`;
  2. serializes the remainder with `JSON.stringify`, rewrites every
     standalone word `gt`, `gte`, `lt`, `lte`, `in` to its `$`-prefixed
     form via the regex `/\b(gt|gte|lt|lte|in)\b/g`, and re-parses the
     string — the result is the filter predicate handed to `model.find`;
  3. resolves `select` and `sort` (comma lists joined with spaces, default
     sort `-createdAt`);
  4. computes `page = parseInt(req.query.page, 10) || 1`,
     `limit = parseInt(req.query.limit, 10) || 25`,
     `startIndex = (page - 1) * limit`, `endIndex = page * limit`,
     applies `.skip(startIndex).limit(limit)` to the query, and reads
     `total = model.countDocuments()` (the unfiltered collection count);
  5. builds the pagination descriptor: `next = {page+1, limit}` iff
     `endIndex < total`, `previous = {page-1, limit}` iff `startIndex > 0`;
  6. stores the envelope `{success: true, count, pagination, data}`.
-/

/-- A decoded query-string value as produced by the HTTP query parser:
either a plain string or a nested object of further values (bracket
notation, e.g. `tuition[gt]=5000` decodes to `tuition ↦ {gt ↦ "5000"}`).
Array-valued parameters (repeated keys) are not modelled; no claim
involves them. -/
inductive QVal where
  | str : String → QVal
  | obj : List (String × QVal) → QVal
deriving Repr

mutual

/-- Boolean equality test on query values (structural). -/
def QVal.beq : QVal → QVal → Bool
  | .str a, .str b => a == b
  | .obj a, .obj b => QVal.beqList a b
  | _, _ => false

/-- Boolean equality test on object field lists. -/
def QVal.beqList : List (String × QVal) → List (String × QVal) → Bool
  | [], [] => true
  | (k, v) :: r, (k', v') :: r' => k == k' && QVal.beq v v' && QVal.beqList r r'
  | _, _ => false

end

mutual

theorem QVal.beq_iff : ∀ a b : QVal, QVal.beq a b = true ↔ a = b
  | .str a, .str b => by simp [QVal.beq]
  | .str a, .obj b => by simp [QVal.beq]
  | .obj a, .str b => by simp [QVal.beq]
  | .obj a, .obj b => by simp [QVal.beq, QVal.beqList_iff a b]

theorem QVal.beqList_iff :
    ∀ a b : List (String × QVal), QVal.beqList a b = true ↔ a = b
  | [], [] => by simp [QVal.beqList]
  | [], _ :: _ => by simp [QVal.beqList]
  | _ :: _, [] => by simp [QVal.beqList]
  | (k, v) :: r, (k', v') :: r' => by
    simp [QVal.beqList, QVal.beq_iff v v', QVal.beqList_iff r r',
      Bool.and_assoc, and_assoc]

end

instance : DecidableEq QVal := fun a b =>
  decidable_of_iff _ (QVal.beq_iff a b)

/-- Word characters of the JavaScript regex class `\w`:
ASCII letters, ASCII digits and underscore. -/
def isWordChar (c : Char) : Bool :=
  ('a' ≤ c && c ≤ 'z') || ('A' ≤ c && c ≤ 'Z') || ('0' ≤ c && c ≤ '9') || c = '_'

/-- The five reserved operator words of the rewrite regex
`/\b(gt|gte|lt|lte|in)\b/g`. -/
def opWords : List String := ["gt", "gte", "lt", "lte", "in"]

/-- Action of the regex on one maximal word-character run: a run that is
exactly one of the five operator words gets a `$` prefixed (the regex's
two `\b` anchors mean a match is always a whole maximal run), any other
run is left alone. -/
def rewriteWord (w : List Char) : List Char :=
  if opWords.contains (String.mk w) then '$' :: w else w

/-- Character-list worker for the regex replacement: accumulates the
current maximal word-character run (in reverse) and flushes it through
`rewriteWord` at every non-word character and at the end. -/
def rewriteChars : List Char → List Char → List Char
  | run, [] => rewriteWord run.reverse
  | run, c :: cs =>
    if isWordChar c then rewriteChars (c :: run) cs
    else rewriteWord run.reverse ++ c :: rewriteChars [] cs

/-- `queryStr.replace(/\b(gt|gte|lt|lte|in)\b/g, (match) => `$` + match)`
acting on one string: every standalone occurrence of an operator word is
`$`-prefixed. -/
def rewriteStr (s : String) : String :=
  String.mk (rewriteChars [] s.data)

mutual

/-- Structural action of step 2 of the middleware
(`JSON.parse(JSON.stringify(reqQuery).replace(/\b(gt|gte|lt|lte|in)\b/g, ...))`)
on a query value.  `JSON.stringify` of the residual map is well-formed
JSON whose only word-character runs are inside the quoted keys and string
values, so the word-boundary regex rewrites each key and each string
value independently and `JSON.parse` undoes the serialization; the
composite is this structural map.  (The two agree on every string free of
control characters; JSON escapes such as `\n` would glue the escape
letter onto an adjacent word in the serialized form.) -/
def qRewrite : QVal → QVal
  | .str s => .str (rewriteStr s)
  | .obj l => .obj (qRewriteList l)

/-- `qRewrite` on the field list of an object: rewrites every key and
recursively every value, preserving order. -/
def qRewriteList : List (String × QVal) → List (String × QVal)
  | [] => []
  | (k, v) :: rest => (rewriteStr k, qRewrite v) :: qRewriteList rest

end

/-- `const removeFields = ["select", "sort", "page", "limit"];` -/
def removeFields : List String := ["select", "sort", "page", "limit"]

/-- `const reqQuery = { ...req.query };
removeFields.forEach((param) => delete reqQuery[param]);` —
deleting the four control keys keeps every other entry, in order. -/
def residualQuery (q : List (String × QVal)) : List (String × QVal) :=
  q.filter (fun p => !removeFields.contains p.1)

/-- The filter predicate passed to `model.find`: the residual map with the
operator rewrite applied (steps 1 and 2 of the middleware). -/
def buildFilter (q : List (String × QVal)) : List (String × QVal) :=
  qRewriteList (residualQuery q)

/-- JavaScript whitespace skipped by `parseInt` (the ASCII part; exotic
Unicode spaces are not modelled, no claim involves them). -/
def isJsSpace (c : Char) : Bool :=
  c = ' ' || c = '\t' || c = '\n' || c = '\r' || c = '\x0b' || c = '\x0c'

/-- Maximal leading decimal-digit run read as a number; `none` when the
run is empty (JavaScript `NaN`). -/
def parseDigits (cs : List Char) : Option Nat :=
  let ds := cs.takeWhile Char.isDigit
  if ds.isEmpty then none
  else some (ds.foldl (fun acc c => acc * 10 + (c.toNat - 48)) 0)

/-- `parseInt(s, 10)`: skip leading whitespace, read an optional sign and
then the maximal decimal-digit prefix; `none` models `NaN` (no digits).
Trailing garbage is ignored, as in JavaScript (`parseInt("12abc") = 12`).
(`parseInt` returns an IEEE double, exact for every value the middleware
can meet; we use `Int`.) -/
def parseIntJS (s : String) : Option Int :=
  match s.data.dropWhile isJsSpace with
  | '-' :: rest => (parseDigits rest).map (fun n => -(n : Int))
  | '+' :: rest => (parseDigits rest).map (fun n => (n : Int))
  | cs => (parseDigits cs).map (fun n => (n : Int))

/-- JavaScript `x || d` after `parseInt`: `NaN` (here `none`) and `0` are
falsy and yield the default; any other number is kept (negatives
included). -/
def jsOrDefault (v : Option Int) (d : Int) : Int :=
  match v with
  | none => d
  | some n => if n = 0 then d else n

/-- `parseInt(req.query.page, 10)` on the raw parameter: an absent
parameter is `parseInt(undefined)` and an object-valued one is
`parseInt("[object Object]")`, both `NaN`; a string parameter is parsed
as a decimal integer. -/
def toNumParam : Option QVal → Option Int
  | some (.str s) => parseIntJS s
  | _ => none

/-- `const page = parseInt(req.query.page, 10) || 1;` -/
def pageOf (q : List (String × QVal)) : Int :=
  jsOrDefault (toNumParam (q.lookup "page")) 1

/-- `const limit = parseInt(req.query.limit, 10) || 25;` -/
def limitOf (q : List (String × QVal)) : Int :=
  jsOrDefault (toNumParam (q.lookup "limit")) 25

/-- `const startIndex = (page - 1) * limit;` -/
def startIndex (page limit : Int) : Int := (page - 1) * limit

/-- `const endIndex = page * limit;` -/
def endIndex (page limit : Int) : Int := page * limit

/-- `req.query.select.split(",").join(" ")`: commas become spaces. -/
def commaToSpace (s : String) : String :=
  String.map (fun c => if c = ',' then ' ' else c) s

/-- The field list handed to `query.select`, when the `select` parameter
is present and truthy (`if (req.query.select)`: an empty string is falsy
and skips selection). -/
def selectOf (q : List (String × QVal)) : Option String :=
  match q.lookup "select" with
  | some (.str s) => if s.isEmpty then none else some (commaToSpace s)
  | _ => none

/-- The sort specification handed to `query.sort`: the comma-joined
`sort` parameter when present and truthy, the default `-createdAt`
otherwise. -/
def sortOf (q : List (String × QVal)) : String :=
  match q.lookup "sort" with
  | some (.str s) => if s.isEmpty then "-createdAt" else commaToSpace s
  | _ => "-createdAt"

/-- A `next`/`previous` pagination sub-descriptor `{ page, limit }`. -/
structure PageRef where
  page : Int
  limit : Int
deriving Repr, DecidableEq

/-- The pagination descriptor of the envelope: optional `next` and
`previous` sub-descriptors. -/
structure Pagination where
  next : Option PageRef
  previous : Option PageRef
deriving Repr, DecidableEq

/-- Lines 74–88 of the middleware:
`if (endIndex < total) pagination.next = { page: page + 1, limit };
 if (startIndex > 0) pagination.previous = { page: page - 1, limit };`
with `total = await model.countDocuments()` (unfiltered count). -/
def buildPagination (page limit : Int) (total : Nat) : Pagination :=
  { next := if endIndex page limit < (total : Int)
      then some { page := page + 1, limit := limit } else none,
    previous := if 0 < startIndex page limit
      then some { page := page - 1, limit := limit } else none }

/-- The result envelope `res.advancedResults =
{ success: true, count: results.length, pagination, data: results }`. -/
structure Envelope (α : Type) where
  success : Bool
  count : Nat
  pagination : Pagination
  data : List α

/-- The whole middleware as a function of the decoded query map `q`, the
storage engine `matchDocs` (what `model.find(filter).select(..).sort(..)`
resolves to for a given filter predicate, selection and sort — it
abstracts the fixed collection state), the unfiltered document count
`total` (`model.countDocuments()`), and the route-declared population
descriptor `pop` (`query.populate(populate)` when present).  The
`.skip(startIndex).limit(limit)` window is the drop/take window on the
engine's ordered result sequence. -/
def advancedResults {α : Type}
    (q : List (String × QVal))
    (matchDocs : List (String × QVal) → Option String → String →
      Option String → List α)
    (total : Nat) (pop : Option String) : Envelope α :=
  let filter := buildFilter q
  let page := pageOf q
  let limit := limitOf q
  let results :=
    ((matchDocs filter (selectOf q) (sortOf q) pop).drop
      (startIndex page limit).toNat).take limit.toNat
  { success := true,
    count := results.length,
    pagination := buildPagination page limit total,
    data := results }

/-! ### Helper lemmas -/

theorem qRewriteList_eq_map (l : List (String × QVal)) :
    qRewriteList l = l.map (fun p => (rewriteStr p.1, qRewrite p.2)) := by
  induction l with
  | nil => rfl
  | cons p rest ih => cases p; simp [qRewriteList, ih]

theorem buildFilter_eq_map (q : List (String × QVal)) :
    buildFilter q =
      (residualQuery q).map (fun p => (rewriteStr p.1, qRewrite p.2)) := by
  rw [buildFilter, qRewriteList_eq_map]

theorem mem_buildFilter {q : List (String × QVal)} {p : String × QVal}
    (hp : p ∈ q) (hk : p.1 ∉ removeFields) :
    (rewriteStr p.1, qRewrite p.2) ∈ buildFilter q := by
  rw [buildFilter_eq_map]
  refine List.mem_map_of_mem _ ?_
  rw [residualQuery, List.mem_filter]
  exact ⟨hp, by simpa using hk⟩

theorem rewriteWord_eq_or_dollar (w : List Char) :
    rewriteWord w = w ∨ '$' ∈ rewriteWord w := by
  unfold rewriteWord
  split
  · exact Or.inr (List.mem_cons_self _ _)
  · exact Or.inl rfl

theorem rewriteChars_eq_or_dollar (cs : List Char) : ∀ run : List Char,
    rewriteChars run cs = run.reverse ++ cs ∨ '$' ∈ rewriteChars run cs := by
  induction cs with
  | nil =>
    intro run
    rcases rewriteWord_eq_or_dollar run.reverse with h | h
    · left; rw [rewriteChars, h]; simp
    · right; rw [rewriteChars]; exact h
  | cons c cs ih =>
    intro run
    rw [rewriteChars]
    split
    · rcases ih (c :: run) with h | h
      · left; rw [h]; simp
      · right; exact h
    · rcases rewriteWord_eq_or_dollar run.reverse with h1 | h1
      · rcases ih [] with h2 | h2
        · left; rw [h1, h2]; simp
        · right
          exact List.mem_append_right _ (List.mem_cons_of_mem _ h2)
      · right; exact List.mem_append_left _ h1

theorem rewriteStr_eq_or_dollar (s : String) :
    rewriteStr s = s ∨ '$' ∈ (rewriteStr s).data := by
  rcases rewriteChars_eq_or_dollar s.data [] with h | h
  · left
    simp only [List.reverse_nil, List.nil_append] at h
    rw [rewriteStr, h]
  · right
    rw [rewriteStr]
    simpa using h

theorem rewriteStr_mem_removeFields {s : String}
    (h : rewriteStr s ∈ removeFields) : s ∈ removeFields := by
  rcases rewriteStr_eq_or_dollar s with h1 | h1
  · rwa [h1] at h
  · exfalso
    rw [removeFields] at h
    simp only [List.mem_cons, List.not_mem_nil, or_false] at h
    rcases h with h | h | h | h <;> rw [h] at h1 <;> revert h1 <;> decide

theorem buildPagination_next_iff (page limit : Int) (total : Nat) :
    (buildPagination page limit total).next =
      some { page := page + 1, limit := limit } ↔
    endIndex page limit < (total : Int) := by
  rw [buildPagination]
  by_cases hc : endIndex page limit < (total : Int) <;> simp [hc]

theorem buildPagination_previous_iff (page limit : Int) (total : Nat) :
    (buildPagination page limit total).previous =
      some { page := page - 1, limit := limit } ↔
    0 < startIndex page limit := by
  rw [buildPagination]
  by_cases hc : 0 < startIndex page limit <;> simp [hc]

/-! ### Claims -/

/-- C1, counterexample: the translation is not "otherwise structurally
unchanged".  In the map `tuition[gt]=5000 & description=best in town` the
entry for `description` does not survive unchanged: the word-boundary
rewrite turns its value into `best $in town`. -/
theorem C1_counterexample :
    ("description", QVal.str "best in town") ∈
      ([("tuition", QVal.obj [("gt", QVal.str "5000")]),
        ("description", QVal.str "best in town")] : List (String × QVal)) ∧
    ("description", QVal.str "best in town") ∉
      buildFilter [("tuition", QVal.obj [("gt", QVal.str "5000")]),
        ("description", QVal.str "best in town")] ∧
    ("description", QVal.str "best $in town") ∈
      buildFilter [("tuition", QVal.obj [("gt", QVal.str "5000")]),
        ("description", QVal.str "best in town")] := by decide

/-- C1 (amended): every query map containing the entry
`tuition ↦ {gt ↦ "5000"}` yields a filter predicate containing
`tuition ↦ {$gt ↦ "5000"}`, and every other non-control entry `(k, v)`
appears in the filter as `(rewriteStr k, qRewrite v)` — i.e. unchanged
except for the same operator-token rewrite applied to its keys and string
values (in particular unchanged when it contains no standalone operator
word). -/
theorem C1_gt_translation (q : List (String × QVal))
    (h : ("tuition", QVal.obj [("gt", QVal.str "5000")]) ∈ q) :
    ("tuition", QVal.obj [("$gt", QVal.str "5000")]) ∈ buildFilter q ∧
    ∀ p ∈ q, p.1 ∉ removeFields →
      (rewriteStr p.1, qRewrite p.2) ∈ buildFilter q := by
  constructor
  · have h3 := mem_buildFilter h (by decide)
    have h2 : (rewriteStr ("tuition", QVal.obj [("gt", QVal.str "5000")]).1,
        qRewrite ("tuition", QVal.obj [("gt", QVal.str "5000")]).2) =
        ("tuition", QVal.obj [("$gt", QVal.str "5000")]) := by decide
    rwa [h2] at h3
  · exact fun p hp hk => mem_buildFilter hp hk

/-- C1 witness: the amended theorem applied to the concrete map
`tuition[gt]=5000 & city=boston`. -/
theorem C1_gt_translation_witness :
    ("tuition", QVal.obj [("$gt", QVal.str "5000")]) ∈
      buildFilter [("tuition", QVal.obj [("gt", QVal.str "5000")]),
        ("city", QVal.str "boston")] ∧
    ("city", QVal.str "boston") ∈
      buildFilter [("tuition", QVal.obj [("gt", QVal.str "5000")]),
        ("city", QVal.str "boston")] := by
  have h := C1_gt_translation
    [("tuition", QVal.obj [("gt", QVal.str "5000")]),
     ("city", QVal.str "boston")] (by decide)
  refine ⟨h.1, ?_⟩
  have h2 := h.2 ("city", QVal.str "boston") (by decide) (by decide)
  have h3 : (rewriteStr ("city", QVal.str "boston").1,
      qRewrite ("city", QVal.str "boston").2) = ("city", QVal.str "boston") := by
    decide
  rwa [h3] at h2

/-- C9: the operator rewrite acts on the whole serialized map, values
included: the filter built from `description=best in town` carries the
altered value `best $in town`, so filter values are not always
preserved. -/
theorem C9_value_rewrite :
    buildFilter [("description", QVal.str "best in town")] =
      [("description", QVal.str "best $in town")] ∧
    QVal.str "best $in town" ≠ QVal.str "best in town" := by decide

/-- C4, counterexample: a non-control key is not always preserved in the
filter.  The map `in=5` has the non-control key `in`, yet the filter's
only key is `$in` — the original key is gone. -/
theorem C4_counterexample :
    ("in", QVal.str "5") ∈ ([("in", QVal.str "5")] : List (String × QVal)) ∧
    "in" ∉ removeFields ∧
    "in" ∉ (buildFilter [("in", QVal.str "5")]).map Prod.fst := by decide

/-- C4 (amended): the filter predicate never contains any of the four
control keys `select`, `sort`, `page`, `limit`; its key sequence is
exactly the non-control keys of the original map in original order, each
passed through the operator-token rewrite (so unchanged unless the key is
itself a standalone operator word); and removing the control keys alters
no remaining entry beyond that rewrite: every non-control entry `(k, v)`
of the original map appears in the filter as `(rewriteStr k, qRewrite v)`. -/
theorem C4_filter_keys (q : List (String × QVal)) :
    (∀ k ∈ (buildFilter q).map Prod.fst, k ∉ removeFields) ∧
    (buildFilter q).map Prod.fst =
      (residualQuery q).map (fun p => rewriteStr p.1) ∧
    ∀ p ∈ q, p.1 ∉ removeFields →
      (rewriteStr p.1, qRewrite p.2) ∈ buildFilter q := by
  refine ⟨?_, ?_, fun p hp hk => mem_buildFilter hp hk⟩
  · intro k hk hmem
    rw [buildFilter_eq_map, List.map_map] at hk
    rcases List.mem_map.mp hk with ⟨p, hpmem, hpe⟩
    have h1 : rewriteStr p.1 = k := hpe
    have h2 : p.1 ∈ removeFields := rewriteStr_mem_removeFields (h1 ▸ hmem)
    rw [residualQuery, List.mem_filter] at hpmem
    have h3 : p.1 ∉ removeFields := by simpa using hpmem.2
    exact h3 h2
  · rw [buildFilter_eq_map, List.map_map]
    rfl

/-- C4 witness: the amended theorem applied to the concrete map
`select=name & averageCost=9`: the surviving key `averageCost` is not a
control key and its entry reaches the filter unchanged. -/
theorem C4_filter_keys_witness :
    "averageCost" ∉ removeFields ∧
    ("averageCost", QVal.str "9") ∈
      buildFilter [("select", QVal.str "name"), ("averageCost", QVal.str "9")] := by
  have h := C4_filter_keys [("select", QVal.str "name"), ("averageCost", QVal.str "9")]
  refine ⟨h.1 "averageCost" (by decide), ?_⟩
  have h2 := h.2.2 ("averageCost", QVal.str "9") (by decide) (by decide)
  have h3 : (rewriteStr ("averageCost", QVal.str "9").1,
      qRewrite ("averageCost", QVal.str "9").2) =
      ("averageCost", QVal.str "9") := by decide
  rwa [h3] at h2

/-- C2: in every envelope the pipeline produces, `next` equals
`{page+1, limit}` exactly when `endIndex < total`, and `previous` equals
`{page-1, limit}` exactly when `startIndex > 0`, `total` being the
document count the pipeline read from the collection. -/
theorem C2_pagination_iff {α : Type} (q : List (String × QVal))
    (matchDocs : List (String × QVal) → Option String → String →
      Option String → List α)
    (total : Nat) (pop : Option String) :
    ((advancedResults q matchDocs total pop).pagination.next =
        some { page := pageOf q + 1, limit := limitOf q } ↔
      endIndex (pageOf q) (limitOf q) < (total : Int)) ∧
    ((advancedResults q matchDocs total pop).pagination.previous =
        some { page := pageOf q - 1, limit := limitOf q } ↔
      0 < startIndex (pageOf q) (limitOf q)) := by
  have h : (advancedResults q matchDocs total pop).pagination =
      buildPagination (pageOf q) (limitOf q) total := rfl
  rw [h]
  exact ⟨buildPagination_next_iff _ _ _, buildPagination_previous_iff _ _ _⟩

/-- C3: for every request whose parsed-and-defaulted `page` and `limit`
are at least 1, the window indices are exactly
`startIndex = (page-1)*limit` and `endIndex = page*limit`, and the
envelope's data is the engine's result sequence with `startIndex` dropped
(`.skip`) and `limit` taken (`.limit`). -/
theorem C3_window {α : Type} (q : List (String × QVal))
    (matchDocs : List (String × QVal) → Option String → String →
      Option String → List α)
    (total : Nat) (pop : Option String)
    (_h1 : 1 ≤ pageOf q) (_h2 : 1 ≤ limitOf q) :
    startIndex (pageOf q) (limitOf q) = (pageOf q - 1) * limitOf q ∧
    endIndex (pageOf q) (limitOf q) = pageOf q * limitOf q ∧
    (advancedResults q matchDocs total pop).data =
      ((matchDocs (buildFilter q) (selectOf q) (sortOf q) pop).drop
        ((pageOf q - 1) * limitOf q).toNat).take (limitOf q).toNat :=
  ⟨rfl, rfl, rfl⟩

/-- Concrete query map `page=2&limit=3` used to instantiate quantified
theorems. -/
def qPage23 : List (String × QVal) :=
  [("page", QVal.str "2"), ("limit", QVal.str "3")]

/-- A concrete seven-document collection (documents are just numbers;
the pipeline treats entities as opaque). -/
def engine7 : List (String × QVal) → Option String → String →
    Option String → List Nat :=
  fun _ _ _ _ => [0, 1, 2, 3, 4, 5, 6]

/-- A concrete engine whose filtered result set is empty. -/
def emptyEngine : List (String × QVal) → Option String → String →
    Option String → List Nat :=
  fun _ _ _ _ => []

/-- C3 witness: page 2 with limit 3 over seven documents selects the
window `[3, 4, 5]` — `skip 3`, `take 3`. -/
theorem C3_window_witness :
    1 ≤ pageOf qPage23 ∧ 1 ≤ limitOf qPage23 ∧
    (advancedResults qPage23 engine7 7 none).data =
      ((engine7 (buildFilter qPage23) (selectOf qPage23) (sortOf qPage23)
        none).drop ((pageOf qPage23 - 1) * limitOf qPage23).toNat).take
        (limitOf qPage23).toNat ∧
    (advancedResults qPage23 engine7 7 none).data = [3, 4, 5] :=
  ⟨by decide, by decide,
    (C3_window qPage23 engine7 7 none (by decide) (by decide)).2.2,
    by decide⟩

/-- C6, counterexample: a window beyond the filtered data does not imply
an absent `next`.  With an empty filtered result set but an unfiltered
count of 100, the first page's window (`startIndex = 0`, past the zero
matching documents; `endIndex = 25 < 100`) yields empty data yet
`next = {page: 2, limit: 25}` — the pagination arithmetic uses the
unfiltered collection count. -/
theorem C6_counterexample :
    (emptyEngine (buildFilter []) (selectOf []) (sortOf []) none).length ≤
      (startIndex (pageOf []) (limitOf [])).toNat ∧
    (advancedResults [] emptyEngine 100 none).data = [] ∧
    (advancedResults [] emptyEngine 100 none).pagination.next =
      some { page := 2, limit := 25 } := by decide

/-- C6 (amended): when the page window lies at or past the end of the
filtered result set, the envelope's data is empty; `next` however is
governed by the unfiltered collection count — it is absent exactly when
`endIndex ≥ total` — so it can still be present in that situation. -/
theorem C6_beyond_window {α : Type} (q : List (String × QVal))
    (matchDocs : List (String × QVal) → Option String → String →
      Option String → List α)
    (total : Nat) (pop : Option String)
    (h : (matchDocs (buildFilter q) (selectOf q) (sortOf q) pop).length ≤
      (startIndex (pageOf q) (limitOf q)).toNat) :
    (advancedResults q matchDocs total pop).data = [] ∧
    ((advancedResults q matchDocs total pop).pagination.next = none ↔
      (total : Int) ≤ endIndex (pageOf q) (limitOf q)) := by
  constructor
  · show ((matchDocs (buildFilter q) (selectOf q) (sortOf q) pop).drop
      (startIndex (pageOf q) (limitOf q)).toNat).take
        (limitOf q).toNat = []
    rw [List.drop_eq_nil_of_le h]
    simp
  · have hp : (advancedResults q matchDocs total pop).pagination =
        buildPagination (pageOf q) (limitOf q) total := rfl
    rw [hp, buildPagination]
    by_cases hc : endIndex (pageOf q) (limitOf q) < (total : Int)
    · simp [hc]
    · simp [hc]
      omega

/-- C6 witness: the amended theorem at the empty-result engine with an
unfiltered count of 100: data is empty and `next` is not `none` because
`100 ≤ 25` fails. -/
theorem C6_beyond_window_witness :
    (advancedResults [] emptyEngine 100 none).data = [] ∧
    ((advancedResults [] emptyEngine 100 none).pagination.next = none ↔
      ((100 : Nat) : Int) ≤ endIndex (pageOf []) (limitOf [])) :=
  C6_beyond_window [] emptyEngine 100 none (by decide)

/-- C7: an absent, object-valued or non-numeric `page` parameter (one on
which `parseInt` yields `NaN`) defaults to page 1, and likewise `limit`
defaults to 25. -/
theorem C7_defaults (q : List (String × QVal)) :
    (toNumParam (q.lookup "page") = none → pageOf q = 1) ∧
    (toNumParam (q.lookup "limit") = none → limitOf q = 25) := by
  refine ⟨fun h => ?_, fun h => ?_⟩
  · simp [pageOf, h, jsOrDefault]
  · simp [limitOf, h, jsOrDefault]

/-- C7 witness: the map `page=abc` (with `limit` absent) defaults to
page 1 and limit 25. -/
theorem C7_defaults_witness :
    pageOf [("page", QVal.str "abc")] = 1 ∧
    limitOf [("page", QVal.str "abc")] = 25 :=
  ⟨(C7_defaults [("page", QVal.str "abc")]).1 (by decide),
   (C7_defaults [("page", QVal.str "abc")]).2 (by decide)⟩

/-- C8: the pipeline is deterministic — identical query maps against an
unchanged collection (same engine response and same document count) give
identical envelopes. -/
theorem C8_deterministic {α : Type} (q q' : List (String × QVal))
    (f f' : List (String × QVal) → Option String → String →
      Option String → List α)
    (total total' : Nat) (pop pop' : Option String)
    (hq : q = q') (hf : f = f') (ht : total = total') (hp : pop = pop') :
    advancedResults q f total pop = advancedResults q' f' total' pop' := by
  rw [hq, hf, ht, hp]

/-- C8 witness: two runs with the same concrete query map and collection
produce the same envelope. -/
theorem C8_deterministic_witness :
    advancedResults qPage23 engine7 7 none =
      advancedResults qPage23 engine7 7 none :=
  C8_deterministic qPage23 qPage23 engine7 engine7 7 7 none none
    rfl rfl rfl rfl

/-- C10: a `page` parameter parsing to the number 0 is falsy under
`|| 1` and yields page 1, and a `limit` parameter parsing to 0 yields the
default limit 25 — zero behaves like an absent or non-numeric value. -/
theorem C10_zero_falsy (q : List (String × QVal)) :
    (toNumParam (q.lookup "page") = some 0 → pageOf q = 1) ∧
    (toNumParam (q.lookup "limit") = some 0 → limitOf q = 25) := by
  refine ⟨fun h => ?_, fun h => ?_⟩
  · simp [pageOf, h, jsOrDefault]
  · simp [limitOf, h, jsOrDefault]

/-- C10 witness: the map `page=0&limit=0` yields page 1 and limit 25. -/
theorem C10_zero_falsy_witness :
    pageOf [("page", QVal.str "0"), ("limit", QVal.str "0")] = 1 ∧
    limitOf [("page", QVal.str "0"), ("limit", QVal.str "0")] = 25 :=
  ⟨(C10_zero_falsy [("page", QVal.str "0"), ("limit", QVal.str "0")]).1
    (by decide),
   (C10_zero_falsy [("page", QVal.str "0"), ("limit", QVal.str "0")]).2
    (by decide)⟩
